import Mathlib

/-!
Shallow embedding of the multi-backend LLM orchestration subsystem of the
OpenClaw-On-Pi repository: the sliding-window rate limiter
(`src/llm/rate_limiter.py`), the backend health bookkeeping
(`src/llm/base_provider.py`) and the provider selection / failover logic
(`src/llm/provider_manager.py`), together with theorems settling the claims
about them.

Modelling conventions:
* Python `dict`s become association lists (`List (key × value)`); lookup takes
  the first binding, assignment updates the first binding in place or appends
  a fresh binding at the end, matching insertion-ordered Python dicts.
* Wall-clock timestamps (`datetime.now()`) and float durations become `ℚ`,
  measured in seconds; the 60-second window is the literal `60`.
* Methods that mutate `self` become functions returning the updated state next
  to their result.
-/

set_option maxHeartbeats 1000000

/-- Lookup in an association list: the value bound to the first occurrence of
the key, mirroring Python dict lookup. -/
def alookup {α : Type} {β : Type} [DecidableEq α] (k : α) : List (α × β) → Option β
  | [] => none
  | (k', v) :: rest => if k' = k then some v else alookup k rest

/-- Replace the value bound to the first occurrence of a key, leaving the list
unchanged when the key is absent: Python `d[k] = v` for a present key. -/
def updateAssoc {α : Type} {β : Type} [DecidableEq α] (l : List (α × β)) (k : α) (v : β) :
    List (α × β) :=
  match l with
  | [] => []
  | (k', v') :: rest => if k' = k then (k, v) :: rest else (k', v') :: updateAssoc rest k v

/-- Python `d[k] = v`: overwrite a present binding, append a new one at the end
otherwise (insertion-ordered dict). -/
def dictInsert {α : Type} {β : Type} [DecidableEq α] (l : List (α × β)) (k : α) (v : β) :
    List (α × β) :=
  if (alookup k l).isSome then updateAssoc l k v else l ++ [(k, v)]

/-- `RateLimitConfig` from `src/llm/rate_limiter.py`: static per-provider
limits. Python ints are modelled as `Int`. -/
structure RateLimitConfig where
  requests_per_minute : Int
  tokens_per_minute : Int
deriving DecidableEq, Repr

/-- `UsageWindow` from `src/llm/rate_limiter.py`: the sliding window of request
timestamps and `(timestamp, token count)` events. -/
structure UsageWindow where
  requests : List ℚ := []
  tokens : List (ℚ × Int) := []
deriving DecidableEq, Repr

/-- `RateLimiter` state from `src/llm/rate_limiter.py`: per-provider limits and
usage windows, both keyed by provider name. -/
structure RateLimiter where
  limits : List (String × RateLimitConfig)
  usage : List (String × UsageWindow)
deriving Repr

namespace RateLimiter

/-- `RateLimiter._clean_window`: drop entries older than one minute
(strictly: keep entries with `t > now - 60`) from the named provider's window;
no-op when the provider has no window. -/
def clean_window (rl : RateLimiter) (provider : String) (now : ℚ) : RateLimiter :=
  match alookup provider rl.usage with
  | none => rl
  | some window =>
    let cutoff := now - 60
    let pruned : UsageWindow :=
      { requests := window.requests.filter (fun t => cutoff < t),
        tokens := window.tokens.filter (fun p => cutoff < p.1) }
    { rl with usage := updateAssoc rl.usage provider pruned }

/-- `RateLimiter.can_request`: true when no limits are configured for the
provider, otherwise prune the window and require the pruned request count to be
strictly below `requests_per_minute`. Returns the pruned state next to the
boolean, mirroring the mutation of `self.usage`. -/
def can_request (rl : RateLimiter) (provider : String) (now : ℚ) : Bool × RateLimiter :=
  match alookup provider rl.limits with
  | none => (true, rl)
  | some limit =>
    let rl' := rl.clean_window provider now
    let window := (alookup provider rl'.usage).getD {}
    (decide ((window.requests.length : Int) < limit.requests_per_minute), rl')

/-- `RateLimiter.record_request`: ensure a window exists, append `now` to the
request list, append `(now, tokens)` to the token list when `tokens > 0`, then
prune. -/
def record_request (rl : RateLimiter) (provider : String) (tokens : Int) (now : ℚ) :
    RateLimiter :=
  let rl' := if (alookup provider rl.usage).isSome then rl
             else { rl with usage := rl.usage ++ [(provider, {})] }
  let window := (alookup provider rl'.usage).getD {}
  let window' := { window with requests := window.requests ++ [now] }
  let window'' := if tokens > 0 then { window' with tokens := window'.tokens ++ [(now, tokens)] }
                  else window'
  ({ rl' with usage := updateAssoc rl'.usage provider window'' }).clean_window provider now

/-- `RateLimiter.get_usage_percentage`: `(rpm, tpm)` usage fractions after
pruning; a dimension with a non-positive configured limit reports `0`;
a provider with no configured limits reports `(0, 0)` without pruning. -/
def get_usage_percentage (rl : RateLimiter) (provider : String) (now : ℚ) :
    (ℚ × ℚ) × RateLimiter :=
  match alookup provider rl.limits with
  | none => ((0, 0), rl)
  | some limit =>
    let rl' := rl.clean_window provider now
    let window := (alookup provider rl'.usage).getD {}
    let rpm : ℚ := if 0 < limit.requests_per_minute
                   then (window.requests.length : ℚ) / (limit.requests_per_minute : ℚ) else 0
    let current_tokens : Int := (window.tokens.map Prod.snd).sum
    let tpm : ℚ := if 0 < limit.tokens_per_minute
                   then (current_tokens : ℚ) / (limit.tokens_per_minute : ℚ) else 0
    ((rpm, tpm), rl')

/-- `RateLimiter.should_failover`: true when either usage fraction has reached
the threshold (the callers in `provider_manager.py` use the default `0.8`). -/
def should_failover (rl : RateLimiter) (provider : String) (now : ℚ) (threshold : ℚ) :
    Bool × RateLimiter :=
  let u := rl.get_usage_percentage provider now
  (decide (threshold ≤ u.1.1) || decide (threshold ≤ u.1.2), u.2)

/-- `RateLimiter.get_wait_time`: seconds until the oldest *stored* request
timestamp leaves the window, clamped at `0`; `0` when no window or no requests.
Note: unlike every other reader, this method does not call `_clean_window`. -/
def get_wait_time (rl : RateLimiter) (provider : String) (now : ℚ) : ℚ :=
  match alookup provider rl.usage with
  | none => 0
  | some window =>
    match window.requests with
    | [] => 0
    | t :: ts => max 0 ((ts.foldl min t + 60) - now)

end RateLimiter

/-- `LLMResponse` from `src/llm/base_provider.py`: the immutable value returned
by a successful generate call. -/
structure LLMResponse where
  content : String
  tokens_used : Int
  model : String
  provider : String
  latency_ms : ℚ
  finish_reason : String := "stop"
  error : Option String := none
deriving Repr

/-- Outcome of one call to a vendor provider's `generate` coroutine. The vendor
implementations (`groq_provider.py`, `ollama_*_provider.py`) perform network
I/O; each provider's next-call outcome is modelled as data: either an
`LLMResponse` or the message of the raised `ProviderError`. -/
inductive GenOutcome where
  | ok (resp : LLMResponse)
  | fail (msg : String)
deriving Repr

/-- True when the outcome is a raised error. -/
def GenOutcome.isFail : GenOutcome → Bool
  | .ok _ => false
  | .fail _ => true

/-- `BaseProvider` from `src/llm/base_provider.py`: the mutable per-provider
fields (health bookkeeping and model selection) plus the modelled outcome of
its vendor `generate` call. -/
structure BaseProvider where
  name : String
  is_healthy : Bool := true
  last_error : Option String := none
  error_count : Nat := 0
  last_check : Option ℚ := none
  default_model : String := ""
  available_models : List String := []
  gen : GenOutcome
deriving Repr

namespace BaseProvider

/-- `BaseProvider.current_model` property: returns `_default_model`. -/
def current_model (p : BaseProvider) : String :=
  p.default_model

/-- `BaseProvider.set_model`: refuse (returning the provider unchanged) when
the name is not among the known models, otherwise make it the active model. -/
def set_model (p : BaseProvider) (model_name : String) : Bool × BaseProvider :=
  if model_name ∈ p.available_models then
    (true, { p with default_model := model_name })
  else
    (false, p)

/-- `BaseProvider.mark_unhealthy`: record the failure message, bump the error
count, stamp the check time. -/
def mark_unhealthy (p : BaseProvider) (error : String) (now : ℚ) : BaseProvider :=
  { p with is_healthy := false, last_error := some error,
           error_count := p.error_count + 1, last_check := some now }

/-- `BaseProvider.mark_healthy`: reset the error bookkeeping, stamp the check
time. -/
def mark_healthy (p : BaseProvider) (now : ℚ) : BaseProvider :=
  { p with is_healthy := true, last_error := none,
           error_count := 0, last_check := some now }

end BaseProvider

/-- Python truthiness of the `Optional[int]` user id: `None` and `0` are
falsy (`if user_id and ...` in `provider_manager.py`). -/
def pyTruthyInt : Option Int → Bool
  | none => false
  | some n => decide (n ≠ 0)

/-- The failover loop's terminal error, `AllProvidersFailedError` from
`src/llm/provider_manager.py`, carrying the last underlying failure message
(`None` when no provider was attempted). -/
inductive FailoverError where
  | allFailed (last_error : Option String)
deriving Repr, DecidableEq

/-- `ProviderManager` state from `src/llm/provider_manager.py`. -/
structure ProviderManager where
  providers : List (String × BaseProvider)
  rate_limiter : RateLimiter
  priority_order : List String
  user_preferences : List (Int × String)
deriving Repr

namespace ProviderManager

/-- `ProviderManager.DEFAULT_PRIORITY`. -/
def DEFAULT_PRIORITY : List String := ["groq", "ollama_cloud", "ollama_local"]

/-- `ProviderManager.__init__`: `priority_order or DEFAULT_PRIORITY`, with
Python truthiness (both `None` and the empty list fall back to the default);
user preferences start empty. -/
def init (providers : List (String × BaseProvider)) (rate_limiter : RateLimiter)
    (priority_order : Option (List String)) : ProviderManager :=
  { providers := providers, rate_limiter := rate_limiter,
    priority_order :=
      match priority_order with
      | some l => if l = [] then DEFAULT_PRIORITY else l
      | none => DEFAULT_PRIORITY,
    user_preferences := [] }

/-- The priority-order loop inside `ProviderManager.get_provider`: first
registered, healthy candidate not flagged by `should_failover` (threshold
`0.8`), threading the limiter state pruned by each `should_failover` call. -/
def gpLoop (providers : List (String × BaseProvider)) (now : ℚ) :
    List String → RateLimiter → Option BaseProvider × RateLimiter
  | [], rl => (none, rl)
  | name :: rest, rl =>
    match alookup name providers with
    | none => gpLoop providers now rest rl
    | some provider =>
      if !provider.is_healthy then gpLoop providers now rest rl
      else
        let sf := rl.should_failover name now (4/5)
        if sf.1 then gpLoop providers now rest sf.2
        else (some provider, sf.2)

/-- The last-resort loop inside `ProviderManager.get_provider`: the first
healthy provider in dict insertion order. -/
def lastResort (providers : List (String × BaseProvider)) : Option BaseProvider :=
  (providers.find? (fun pr => pr.2.is_healthy)).map Prod.snd

/-- `ProviderManager.get_provider`: user-preference branch, then the priority
loop, then the last resort, returning the updated (pruned) limiter state next
to the chosen provider. -/
def get_provider (m : ProviderManager) (user_id : Option Int) (now : ℚ) :
    Option BaseProvider × RateLimiter :=
  let step1 : Option BaseProvider × RateLimiter :=
    if pyTruthyInt user_id then
      match user_id.bind (fun uid => alookup uid m.user_preferences) with
      | some preferred =>
        match alookup preferred m.providers with
        | some provider =>
          if provider.is_healthy then
            let sf := m.rate_limiter.should_failover preferred now (4/5)
            if !sf.1 then (some provider, sf.2) else (none, sf.2)
          else (none, m.rate_limiter)
        | none => (none, m.rate_limiter)
      | none => (none, m.rate_limiter)
    else (none, m.rate_limiter)
  match step1 with
  | (some p, rl) => (some p, rl)
  | (none, rl) =>
    match gpLoop m.providers now m.priority_order rl with
    | (some p, rl') => (some p, rl')
    | (none, rl') => (lastResort m.providers, rl')

/-- `ProviderManager._get_provider_order`: a copy of the priority order, with a
truthy caller's registered preference moved (first occurrence removed, then
inserted at the front). -/
def get_provider_order (m : ProviderManager) (user_id : Option Int) : List String :=
  if pyTruthyInt user_id then
    match user_id.bind (fun uid => alookup uid m.user_preferences) with
    | some preferred =>
      if preferred ∈ m.priority_order then
        preferred :: m.priority_order.erase preferred
      else m.priority_order
    | none => m.priority_order
  else m.priority_order

/-- The loop body of `ProviderManager.generate_with_failover`, threading the
manager state (provider health and limiter windows mutate as the loop runs).
The third component of the result records, in order, the providers on which
`generate` was actually called (the attempt trace the failover claims are
about); it is bookkeeping added by the embedding, not state of the source. -/
def gwfLoop (now : ℚ) :
    ProviderManager → List String → List String → Option String → List String →
    (Except FailoverError LLMResponse × ProviderManager × List String)
  | m, [], _, last_error, attempted => (.error (.allFailed last_error), m, attempted)
  | m, name :: rest, tried, last_error, attempted =>
    if name ∈ tried then gwfLoop now m rest tried last_error attempted
    else
      match alookup name m.providers with
      | none => gwfLoop now m rest tried last_error attempted
      | some provider =>
        if !provider.is_healthy && decide (tried.length < m.providers.length - 1) then
          gwfLoop now m rest tried last_error attempted
        else
          let tried' := tried ++ [name]
          let cr := m.rate_limiter.can_request name now
          let m' := { m with rate_limiter := cr.2 }
          if !cr.1 then gwfLoop now m' rest tried' last_error attempted
          else
            match provider.gen with
            | .ok resp =>
              let m'' := { m' with
                providers := updateAssoc m'.providers name (provider.mark_healthy now),
                rate_limiter := cr.2.record_request name resp.tokens_used now }
              (.ok resp, m'', attempted ++ [name])
            | .fail msg =>
              let m'' := { m' with
                providers := updateAssoc m'.providers name (provider.mark_unhealthy msg now) }
              gwfLoop now m'' rest tried' (some msg) (attempted ++ [name])

/-- `ProviderManager.generate_with_failover`: run the failover loop over
`_get_provider_order(user_id)` with empty accumulators. -/
def generate_with_failover (m : ProviderManager) (user_id : Option Int) (now : ℚ) :
    Except FailoverError LLMResponse × ProviderManager × List String :=
  gwfLoop now m (m.get_provider_order user_id) [] none []

/-- `ProviderManager.set_active_provider`: false for an unregistered name;
otherwise remove the name's first occurrence from the priority order (when
present) and reinsert it at the front. -/
def set_active_provider (m : ProviderManager) (provider_name : String) :
    Bool × ProviderManager :=
  if (alookup provider_name m.providers).isNone then (false, m)
  else
    let order := if provider_name ∈ m.priority_order
                 then m.priority_order.erase provider_name
                 else m.priority_order
    (true, { m with priority_order := provider_name :: order })

/-- `ProviderManager.set_user_preference`: false for an unregistered provider
name; otherwise store the preference for the user id (any id, including 0). -/
def set_user_preference (m : ProviderManager) (user_id : Int) (provider_name : String) :
    Bool × ProviderManager :=
  if (alookup provider_name m.providers).isNone then (false, m)
  else (true, { m with user_preferences := dictInsert m.user_preferences user_id provider_name })

/-- `ProviderManager.set_provider_model`: false for an unregistered provider,
otherwise delegate to the provider's `set_model` (mutating the stored
provider). -/
def set_provider_model (m : ProviderManager) (provider_name : String) (model_name : String) :
    Bool × ProviderManager :=
  match alookup provider_name m.providers with
  | none => (false, m)
  | some p =>
    let r := p.set_model model_name
    (r.1, { m with providers := updateAssoc m.providers provider_name r.2 })

end ProviderManager

/-! ### Association-list lemmas -/

theorem alookup_updateAssoc_self {α β : Type} [DecidableEq α] (l : List (α × β)) (k : α) (v : β) :
    alookup k (updateAssoc l k v) = (alookup k l).map (fun _ => v) := by
  induction l with
  | nil => rfl
  | cons hd tl ih =>
    obtain ⟨k', v'⟩ := hd
    by_cases h : k' = k
    · simp [updateAssoc, alookup, h]
    · simp [updateAssoc, alookup, h, ih]

theorem alookup_updateAssoc_ne {α β : Type} [DecidableEq α] (l : List (α × β)) (k n : α) (v : β)
    (h : k ≠ n) : alookup n (updateAssoc l k v) = alookup n l := by
  induction l with
  | nil => rfl
  | cons hd tl ih =>
    obtain ⟨k', v'⟩ := hd
    by_cases hk : k' = k
    · subst hk
      simp [updateAssoc, alookup, h]
    · simp [updateAssoc, alookup, hk, ih]

theorem mem_updateAssoc {α β : Type} [DecidableEq α] {l : List (α × β)} {k : α} {v : β}
    {pr : α × β} (h : pr ∈ updateAssoc l k v) : pr = (k, v) ∨ pr ∈ l := by
  induction l with
  | nil => simp [updateAssoc] at h
  | cons hd tl ih =>
    obtain ⟨k', v'⟩ := hd
    by_cases hk : k' = k
    · simp only [updateAssoc, if_pos hk] at h
      rcases List.mem_cons.mp h with h | h
      · exact Or.inl h
      · exact Or.inr (List.mem_cons_of_mem _ h)
    · simp only [updateAssoc, if_neg hk] at h
      rcases List.mem_cons.mp h with h | h
      · exact Or.inr (h ▸ List.mem_cons_self _ _)
      · rcases ih h with h' | h'
        · exact Or.inl h'
        · exact Or.inr (List.mem_cons_of_mem _ h')

theorem alookup_mem {α β : Type} [DecidableEq α] {l : List (α × β)} {k : α} {v : β}
    (h : alookup k l = some v) : (k, v) ∈ l := by
  induction l with
  | nil => simp [alookup] at h
  | cons hd tl ih =>
    obtain ⟨k', v'⟩ := hd
    by_cases hk : k' = k
    · subst hk
      simp [alookup] at h
      exact h ▸ List.mem_cons_self _ _
    · simp [alookup, hk] at h
      exact List.mem_cons_of_mem _ (ih h)

theorem alookup_eq_none_iff {α β : Type} [DecidableEq α] (l : List (α × β)) (k : α) :
    alookup k l = none ↔ k ∉ l.map Prod.fst := by
  induction l with
  | nil => simp [alookup]
  | cons hd tl ih =>
    obtain ⟨k', v'⟩ := hd
    by_cases hk : k' = k
    · subst hk
      simp [alookup]
    · simp [alookup, hk, ih, Ne.symm hk]

theorem alookup_of_mem_nodup {α β : Type} [DecidableEq α] {l : List (α × β)} {k : α} {v : β}
    (hm : (k, v) ∈ l) (hnd : (l.map Prod.fst).Nodup) : alookup k l = some v := by
  induction l with
  | nil => simp at hm
  | cons hd tl ih =>
    obtain ⟨k', v'⟩ := hd
    simp only [List.map_cons, List.nodup_cons] at hnd
    rcases List.mem_cons.mp hm with h | h
    · injection h with h1 h2
      subst h1
      subst h2
      simp [alookup]
    · by_cases hk : k' = k
      · subst hk
        exact absurd (List.mem_map_of_mem Prod.fst h) hnd.1
      · simp only [alookup, if_neg hk]
        exact ih h hnd.2

theorem updateAssoc_self_eq {α β : Type} [DecidableEq α] {l : List (α × β)} {k : α} {v : β}
    (h : alookup k l = some v) : updateAssoc l k v = l := by
  induction l with
  | nil => rfl
  | cons hd tl ih =>
    obtain ⟨k', v'⟩ := hd
    by_cases hk : k' = k
    · subst hk
      simp [alookup] at h
      simp [updateAssoc, h]
    · simp [alookup, hk] at h
      simp [updateAssoc, hk, ih h]

/-! ### Rate-limiter window lemmas -/

/-- Pruning a window to the entries strictly newer than `now - 60`. -/
def pruneWindow (now : ℚ) (w : UsageWindow) : UsageWindow :=
  { requests := w.requests.filter (fun t => now - 60 < t),
    tokens := w.tokens.filter (fun q => now - 60 < q.1) }

theorem clean_window_limits (rl : RateLimiter) (p : String) (now : ℚ) :
    (rl.clean_window p now).limits = rl.limits := by
  unfold RateLimiter.clean_window
  cases alookup p rl.usage <;> rfl

theorem clean_window_lookup (rl : RateLimiter) (p : String) (now : ℚ) :
    alookup p (rl.clean_window p now).usage = (alookup p rl.usage).map (pruneWindow now) := by
  unfold RateLimiter.clean_window
  cases h : alookup p rl.usage with
  | none => simp [h]
  | some w => simp [alookup_updateAssoc_self, h, pruneWindow]

/-! ### C3 -/

/-- C3: for a backend configured with `requestsPerMinute = N > 0` and `k`
recorded requests within the last 60 seconds (strictly newer than `now - 60`),
`can_request` returns true exactly when `k < N`. -/
theorem can_request_iff_window_below_limit (rl : RateLimiter) (name : String) (now : ℚ)
    (c : RateLimitConfig) (hc : alookup name rl.limits = some c)
    (hN : 0 < c.requests_per_minute) :
    ((rl.can_request name now).1 = true ↔
      (((((alookup name rl.usage).getD {}).requests.filter (fun t => now - 60 < t)).length : Int)
        < c.requests_per_minute)) := by
  unfold RateLimiter.can_request
  rw [hc]
  simp only [clean_window_lookup]
  cases h : alookup name rl.usage with
  | none => simp [h]
  | some w => simp [h, pruneWindow]

/-- Concrete instance for the C3 witness: limit 2 rpm, two in-window requests
at `t = 10` and `t = 30`. -/
def rlC3 : RateLimiter :=
  { limits := [("X", ⟨2, 100⟩)], usage := [("X", { requests := [10, 30] })] }

/-- Witness for C3: at `now = 40` both recorded requests are inside the window,
so `can_request` is governed by `2 < 2` (and is therefore false). -/
theorem can_request_iff_window_below_limit_witness :
    ((rlC3.can_request "X" 40).1 = true ↔
      (((((alookup "X" rlC3.usage).getD {}).requests.filter
          (fun t => (40 : ℚ) - 60 < t)).length : Int) < (2 : Int))) :=
  can_request_iff_window_below_limit rlC3 "X" 40 ⟨2, 100⟩ (by rfl) (by decide)

/-! ### C2 -/

/-- Concrete rate limiter with a configured `requests_per_minute = 0` and an
empty usage window. -/
def rlC2 : RateLimiter := { limits := [("X", ⟨0, 100⟩)], usage := [("X", {})] }

/-- Counterexample to C2: with `requestsPerMinute = 0` configured and zero
recorded requests, `can_request` returns false, not true: a zero request limit
blocks every request rather than meaning unlimited. -/
theorem can_request_zero_limit_counterexample :
    alookup "X" rlC2.limits = some ⟨0, 100⟩ ∧
    ((alookup "X" rlC2.usage).getD {}).requests = [] ∧
    (rlC2.can_request "X" 5).1 = false := by
  refine ⟨rfl, rfl, rfl⟩

/-- C2 as amended: for a backend with `requestsPerMinute = 0`, `can_request`
always returns false (the pruned count is never strictly below zero), while
`get_usage_percentage` reports `0` request usage for it (zero is treated as
unlimited only by the usage-fraction reader, not by the admission gate). -/
theorem can_request_zero_limit_always_false (rl : RateLimiter) (name : String) (now : ℚ)
    (c : RateLimitConfig) (hc : alookup name rl.limits = some c)
    (h0 : c.requests_per_minute = 0) :
    (rl.can_request name now).1 = false ∧ (rl.get_usage_percentage name now).1.1 = 0 := by
  constructor
  · unfold RateLimiter.can_request
    rw [hc]
    simp [h0]
  · unfold RateLimiter.get_usage_percentage
    rw [hc]
    simp [h0]

/-- Witness for the amended C2 at the concrete zero-limit backend. -/
theorem can_request_zero_limit_always_false_witness :
    (rlC2.can_request "X" 5).1 = false ∧ (rlC2.get_usage_percentage "X" 5).1.1 = 0 :=
  can_request_zero_limit_always_false rlC2 "X" 5 ⟨0, 100⟩ (by rfl) (by rfl)

/-! ### C6 -/

/-- Base state for the C6 counterexample. -/
def rlC6base : RateLimiter := { limits := [("X", ⟨30, 14400⟩)], usage := [("X", {})] }

/-- State reached by recording a request at `t = 0` and another at `t = 30`
(both through the public `record_request`, which prunes on every write:
at `t = 30` the entry from `t = 0` is still inside the window, so both
timestamps remain stored). -/
def rlC6 : RateLimiter := (rlC6base.record_request "X" 0 0).record_request "X" 0 30

/-- Counterexample to C6: at `now = 70` the stored entry from `t = 0` is stale
(older than 60 seconds) because no pruning call has run since `t = 30`, and
`get_wait_time` — which, unlike the other readers, never prunes — computes the
wait from that stale minimum and reports `0`, while the request recorded at
`t = 30` is still inside the window and only ages out 20 seconds later. -/
theorem get_wait_time_stale_entry_counterexample :
    ((alookup "X" rlC6.usage).getD {}).requests = [0, 30] ∧
    rlC6.get_wait_time "X" 70 = 0 ∧
    ((70 : ℚ) - 60 < 30 ∧ (30 : ℚ) + 60 - 70 = 20) := by
  refine ⟨?_, ?_, by norm_num, by norm_num⟩
  · norm_num [rlC6, rlC6base, RateLimiter.record_request, RateLimiter.clean_window,
      alookup, updateAssoc, pruneWindow, List.filter]
  · norm_num [rlC6, rlC6base, RateLimiter.record_request, RateLimiter.clean_window,
      alookup, updateAssoc, pruneWindow, RateLimiter.get_wait_time, List.filter]

/-- C6 as amended: `get_wait_time` reads the stored window without pruning and
returns `max 0 (min(stored timestamps) + 60 - now)`; whenever every stored
entry is still inside the 60-second window (which the other operations' pruning
would guarantee, but `get_wait_time` itself does not), it returns `0` with no
requests stored and otherwise exactly the positive time until the oldest
recorded request ages out. -/
theorem get_wait_time_in_window (rl : RateLimiter) (name : String) (now : ℚ)
    (w : UsageWindow) (h : alookup name rl.usage = some w)
    (hin : ∀ t ∈ w.requests, now - 60 < t) :
    (w.requests = [] → rl.get_wait_time name now = 0) ∧
    (∀ t0 ts, w.requests = t0 :: ts →
      rl.get_wait_time name now = ts.foldl min t0 + 60 - now ∧
      0 < rl.get_wait_time name now) := by
  have hof : rl.get_wait_time name now =
      (match w.requests with
       | [] => (0 : ℚ)
       | t :: ts => max 0 ((ts.foldl min t + 60) - now)) := by
    unfold RateLimiter.get_wait_time
    rw [h]
  constructor
  · intro hreq
    rw [hof, hreq]
  · intro t0 ts hreq
    have hmin : now - 60 < ts.foldl min t0 := by
      have hgen : ∀ (l : List ℚ) (a : ℚ), now - 60 < a → (∀ t ∈ l, now - 60 < t) →
          now - 60 < l.foldl min a := by
        intro l
        induction l with
        | nil => intro a ha _; simpa using ha
        | cons x xs ih =>
          intro a ha hl
          simp only [List.foldl_cons]
          exact ih (min a x) (lt_min ha (hl x (List.mem_cons_self _ _)))
            (fun t ht => hl t (List.mem_cons_of_mem _ ht))
      exact hgen ts t0 (hin t0 (hreq ▸ List.mem_cons_self _ _))
        (fun t ht => hin t (hreq ▸ List.mem_cons_of_mem _ ht))
    have hpos : 0 < ts.foldl min t0 + 60 - now := by linarith
    have heval : rl.get_wait_time name now = ts.foldl min t0 + 60 - now := by
      rw [hof, hreq]
      exact max_eq_right hpos.le
    exact ⟨heval, heval ▸ hpos⟩

/-- Concrete in-window state for the C6 witness. -/
def rlC6w : RateLimiter := { limits := [], usage := [("X", { requests := [30, 50] })] }

/-- Witness for the amended C6: with both stored requests inside the window at
`now = 70`, `get_wait_time` returns the positive time until the oldest one
(recorded at `t = 30`) ages out. -/
theorem get_wait_time_in_window_witness :
    rlC6w.get_wait_time "X" 70 = [(50 : ℚ)].foldl min 30 + 60 - 70 ∧
    0 < rlC6w.get_wait_time "X" 70 :=
  (get_wait_time_in_window rlC6w "X" 70 { requests := [30, 50] } (by rfl)
    (by intro t ht; simp at ht; rcases ht with h | h <;> simp [h] <;> norm_num)).2
    30 [50] rfl

/-! ### C7 -/

/-- C7: `set_model` succeeds exactly when the name is a member of the
provider's currently known model list, making it the active model; on failure
the provider is unchanged. `set_provider_model` delegates: it fails (leaving
the manager unchanged) for an unregistered provider, reports the delegated
result for a registered one, and leaves the manager unchanged whenever the
delegated call fails. -/
theorem set_model_member_iff (p : BaseProvider) (n : String) (mgr : ProviderManager)
    (pn : String) :
    (((p.set_model n).1 = true) ↔ n ∈ p.available_models) ∧
    ((p.set_model n).1 = true → (p.set_model n).2.current_model = n ∧
      (p.set_model n).2.available_models = p.available_models) ∧
    ((p.set_model n).1 = false → (p.set_model n).2 = p) ∧
    (alookup pn mgr.providers = none → mgr.set_provider_model pn n = (false, mgr)) ∧
    (∀ q, alookup pn mgr.providers = some q →
      (mgr.set_provider_model pn n).1 = (q.set_model n).1 ∧
      ((q.set_model n).1 = false → mgr.set_provider_model pn n = (false, mgr))) := by
  refine ⟨?_, ?_, ?_, ?_, ?_⟩
  · unfold BaseProvider.set_model
    by_cases h : n ∈ p.available_models <;> simp [h]
  · intro h
    unfold BaseProvider.set_model at h ⊢
    by_cases hm : n ∈ p.available_models
    · simp [hm, BaseProvider.current_model]
    · simp [hm] at h
  · intro h
    unfold BaseProvider.set_model at h ⊢
    by_cases hm : n ∈ p.available_models
    · simp [hm] at h
    · simp [hm]
  · intro h
    unfold ProviderManager.set_provider_model
    rw [h]
  · intro q hq
    unfold ProviderManager.set_provider_model
    rw [hq]
    refine ⟨rfl, ?_⟩
    intro hfail
    unfold BaseProvider.set_model at hfail ⊢
    by_cases hm : n ∈ p.available_models <;> by_cases hm' : n ∈ q.available_models
    all_goals simp only [hm', if_pos, if_neg, not_false_iff] at hfail ⊢
    all_goals first
      | (simp [hm'] at hfail)
      | (simp [hm', updateAssoc_self_eq hq])

/-- Concrete provider and manager for the C7 witness. -/
def pC7 : BaseProvider := { name := "g", available_models := ["m1", "m2"], gen := .fail "x" }

/-- Concrete manager for the C7 witness. -/
def mgrC7 : ProviderManager :=
  { providers := [("g", pC7)], rate_limiter := { limits := [], usage := [] },
    priority_order := ["g"], user_preferences := [] }

/-- Witness for C7 at a concrete provider: setting a known model succeeds and
an unregistered provider name fails at the manager level. -/
theorem set_model_member_iff_witness :
    (pC7.set_model "m2").1 = true ∧ mgrC7.set_provider_model "nope" "m2" = (false, mgrC7) :=
  ⟨(set_model_member_iff pC7 "m2" mgrC7 "g").1.mpr (by decide),
   (set_model_member_iff pC7 "m2" mgrC7 "nope").2.2.2.1 (by rfl)⟩

/-! ### C8 -/

/-- C8: the health state machine of `BaseProvider`. `mark_healthy` yields the
Healthy state with the error count reset to `0` and the last error cleared;
`mark_unhealthy m` yields the Unhealthy state with the error count incremented
by one and the last error equal to `m`; both stamp the check timestamp. -/
theorem mark_health_transitions (p : BaseProvider) (msg : String) (now : ℚ) :
    (p.mark_healthy now).is_healthy = true ∧
    (p.mark_healthy now).error_count = 0 ∧
    (p.mark_healthy now).last_error = none ∧
    (p.mark_healthy now).last_check = some now ∧
    (p.mark_unhealthy msg now).is_healthy = false ∧
    (p.mark_unhealthy msg now).error_count = p.error_count + 1 ∧
    (p.mark_unhealthy msg now).last_error = some msg ∧
    (p.mark_unhealthy msg now).last_check = some now := by
  refine ⟨rfl, rfl, rfl, rfl, rfl, rfl, rfl, rfl⟩

/-! ### C9 -/

/-- Rate limiter with nothing configured, shared by the concrete managers
below. -/
def rlFree : RateLimiter := { limits := [], usage := [] }

/-- A provider registered under the name `"x"`, which is not one of the names
in `DEFAULT_PRIORITY`. -/
def pC9 : BaseProvider := { name := "x", gen := .fail "boom" }

/-- Counterexample to C9: constructing a manager with a single registered
provider `"x"` and no explicit priority list leaves `priority_order` at the
built-in default, which is not a permutation of the registered names. -/
theorem init_priority_order_not_perm_counterexample :
    (ProviderManager.init [("x", pC9)] rlFree none).priority_order =
      ["groq", "ollama_cloud", "ollama_local"] ∧
    ¬ (ProviderManager.init [("x", pC9)] rlFree none).priority_order.Perm
        ((ProviderManager.init [("x", pC9)] rlFree none).providers.map Prod.fst) := by
  refine ⟨rfl, ?_⟩
  intro h
  have hlen := h.length_eq
  simp [ProviderManager.init, ProviderManager.DEFAULT_PRIORITY] at hlen

/-- C9 as amended: the constructor stores the supplied priority list verbatim
(falling back to the built-in default when it is absent or empty) without
checking it against the registered names, so the permutation property holds
after construction only when the supplied list is itself a permutation of the
registered names; `set_active_provider` does preserve the property — for a
registered name it succeeds and the order remains a permutation, and for an
unregistered name it returns false leaving the manager unchanged. -/
theorem set_active_provider_preserves_perm (m : ProviderManager) (name : String)
    (hperm : m.priority_order.Perm (m.providers.map Prod.fst)) :
    ((alookup name m.providers).isSome = true →
      (m.set_active_provider name).1 = true ∧
      (m.set_active_provider name).2.priority_order.Perm
        ((m.set_active_provider name).2.providers.map Prod.fst)) ∧
    (alookup name m.providers = none → m.set_active_provider name = (false, m)) ∧
    (∀ (provs : List (String × BaseProvider)) (rl : RateLimiter) (po : List String),
      po ≠ [] → (ProviderManager.init provs rl (some po)).priority_order = po) := by
  refine ⟨?_, ?_, ?_⟩
  · intro hs
    obtain ⟨v, hv⟩ := Option.isSome_iff_exists.mp hs
    have hkeys : name ∈ m.providers.map Prod.fst :=
      List.mem_map_of_mem Prod.fst (alookup_mem hv)
    have horder : name ∈ m.priority_order := hperm.mem_iff.mpr hkeys
    have hcond : (alookup name m.providers).isNone = false := by
      rw [hv]; rfl
    constructor
    · simp [ProviderManager.set_active_provider, hcond]
    · simp only [ProviderManager.set_active_provider, hcond, Bool.false_eq_true,
        if_false, if_pos horder]
      exact ((List.perm_cons_erase horder).symm.trans hperm)
  · intro h
    simp [ProviderManager.set_active_provider, h]
  · intro provs rl po hpo
    simp [ProviderManager.init, hpo]

/-- Concrete two-provider manager whose order is a permutation of its
registered names, for the C9 witness. -/
def mgrC9w : ProviderManager :=
  { providers := [("a", { name := "a", gen := .fail "ea" }),
                  ("b", { name := "b", gen := .fail "eb" })],
    rate_limiter := rlFree, priority_order := ["a", "b"], user_preferences := [] }

/-- Witness for the amended C9: promoting the registered name `"b"` succeeds
and keeps the priority order a permutation of the registered names. -/
theorem set_active_provider_preserves_perm_witness :
    (mgrC9w.set_active_provider "b").1 = true ∧
    (mgrC9w.set_active_provider "b").2.priority_order.Perm
      ((mgrC9w.set_active_provider "b").2.providers.map Prod.fst) :=
  (set_active_provider_preserves_perm mgrC9w "b" (List.Perm.refl _)).1 (by rfl)

/-! ### C10 -/

theorem alookup_append_of_none {α β : Type} [DecidableEq α] {l : List (α × β)}
    (l' : List (α × β)) {k : α} (h : alookup k l = none) :
    alookup k (l ++ l') = alookup k l' := by
  induction l with
  | nil => rfl
  | cons hd tl ih =>
    obtain ⟨k', v'⟩ := hd
    by_cases hk : k' = k
    · simp [alookup, hk] at h
    · simp only [alookup, if_neg hk] at h
      simp only [List.cons_append, alookup, if_neg hk]
      exact ih h

theorem alookup_dictInsert_self {α β : Type} [DecidableEq α] (l : List (α × β)) (k : α)
    (v : β) : alookup k (dictInsert l k v) = some v := by
  unfold dictInsert
  cases h : alookup k l with
  | none =>
    simp only [h, Option.isSome_none, Bool.false_eq_true, if_false]
    rw [alookup_append_of_none _ h]
    simp [alookup]
  | some w =>
    simp only [h, Option.isSome_some, if_true]
    rw [alookup_updateAssoc_self, h]
    rfl

/-- C10: for the falsy caller identity `0`, a per-caller preference is ignored
by both selection and ordering — `set_user_preference(0, name)` succeeds and
stores the entry for any registered name, yet `_get_provider_order` for caller
`0` is exactly the priority order (the preference is not moved to the front)
and `get_provider` for caller `0` selects exactly as it does with no caller at
all. -/
theorem user_zero_preference_ignored (m : ProviderManager) (name : String) (now : ℚ)
    (h : (alookup name m.providers).isSome = true) :
    (m.set_user_preference 0 name).1 = true ∧
    alookup 0 (m.set_user_preference 0 name).2.user_preferences = some name ∧
    (∀ m' : ProviderManager, m'.get_provider_order (some 0) = m'.priority_order) ∧
    (∀ m' : ProviderManager, (m'.get_provider (some 0) now).1 = (m'.get_provider none now).1) := by
  obtain ⟨v, hv⟩ := Option.isSome_iff_exists.mp h
  have hcond : (alookup name m.providers).isNone = false := by rw [hv]; rfl
  refine ⟨?_, ?_, ?_, ?_⟩
  · simp [ProviderManager.set_user_preference, hcond]
  · simp only [ProviderManager.set_user_preference, hcond, Bool.false_eq_true, if_false]
    exact alookup_dictInsert_self _ _ _
  · intro m'
    simp [ProviderManager.get_provider_order, pyTruthyInt]
  · intro m'
    simp [ProviderManager.get_provider, pyTruthyInt]

/-- Concrete manager for the C10 witness (provider `"a"` registered). -/
def mgrC10 : ProviderManager :=
  { providers := [("a", { name := "a", gen := .fail "ea" })],
    rate_limiter := rlFree, priority_order := ["a"], user_preferences := [] }

/-! ### C1 -/

/-- Concrete manager with two registered providers, both already unhealthy,
for the C1 counterexample. -/
def mgrC1 : ProviderManager :=
  { providers := [("a", { name := "a", is_healthy := false, gen := .fail "a down" }),
                  ("b", { name := "b", is_healthy := false, gen := .fail "b down" })],
    rate_limiter := rlFree, priority_order := ["a", "b"], user_preferences := [] }

/-- Counterexample to C1: with two registered backends that are both unhealthy,
an otherwise-failing request attempts (calls generate on) none of them — the
attempt trace is empty and the loop gives up with no underlying error — rather
than attempting every registered backend as a last resort. -/
theorem gwf_all_unhealthy_attempts_none_counterexample :
    mgrC1.providers.length = 2 ∧
    (∀ pr ∈ mgrC1.providers, pr.2.is_healthy = false) ∧
    (mgrC1.generate_with_failover none 0).2.2 = [] ∧
    (mgrC1.generate_with_failover none 0).1 = .error (.allFailed none) := by
  refine ⟨rfl, by decide, rfl, rfl⟩

/-- Loop lemma for the amended C1: when every registered provider is unhealthy
and at least two are registered, every iteration of the failover loop takes the
skip-unhealthy branch (the tried list stays empty, and `0 < N - 1` keeps the
skip guard live), so no provider is ever attempted. -/
theorem gwfLoop_all_unhealthy (m : ProviderManager) (now : ℚ)
    (hunh : ∀ pr ∈ m.providers, pr.2.is_healthy = false)
    (hN : 2 ≤ m.providers.length) :
    ∀ order : List String,
      ProviderManager.gwfLoop now m order [] none [] = (.error (.allFailed none), m, []) := by
  intro order
  induction order with
  | nil => rfl
  | cons name rest ih =>
    rw [ProviderManager.gwfLoop]
    simp only [List.not_mem_nil, if_false]
    cases h : alookup name m.providers with
    | none => exact ih
    | some p =>
      have hh : p.is_healthy = false := hunh (name, p) (alookup_mem h)
      have hlen : decide ((0 : Nat) < m.providers.length - 1) = true :=
        decide_eq_true (by omega)
      simp only [hh, Bool.not_false, List.length_nil, hlen, Bool.and_true, if_true]
      exact ih

/-- C1 as amended: an unhealthy candidate is skipped whenever fewer than
`N - 1` candidates have been tried so far (`N` the number of registered
backends); because skipped candidates are not counted as tried and the
candidate list is traversed only once, when every registered backend is
unhealthy and `N ≥ 2` the failover loop attempts no backend at all — generate
is never called and it gives up with `AllProvidersFailedError` carrying no
underlying error. -/
theorem gwf_all_unhealthy_attempts_none (m : ProviderManager) (user_id : Option Int)
    (now : ℚ) (hunh : ∀ pr ∈ m.providers, pr.2.is_healthy = false)
    (hN : 2 ≤ m.providers.length) :
    (m.generate_with_failover user_id now).1 = .error (.allFailed none) ∧
    (m.generate_with_failover user_id now).2.2 = [] := by
  unfold ProviderManager.generate_with_failover
  rw [gwfLoop_all_unhealthy m now hunh hN]
  exact ⟨rfl, rfl⟩

/-- Witness for the amended C1 at the concrete two-provider manager. -/
theorem gwf_all_unhealthy_attempts_none_witness :
    (mgrC1.generate_with_failover none 0).1 = .error (.allFailed none) ∧
    (mgrC1.generate_with_failover none 0).2.2 = [] :=
  gwf_all_unhealthy_attempts_none mgrC1 none 0 (by decide) (by decide)

/-! ### C4 -/

/-- The generate-failure message of the provider registered under a name
(`none` for an unregistered name or a succeeding provider). -/
def genErrAt (m : ProviderManager) (n : String) : Option String :=
  (alookup n m.providers).bind (fun p =>
    match p.gen with
    | .fail s => some s
    | .ok _ => none)

/-- Loop lemma for C4: when every registered provider's generate call fails,
the failover loop terminates with `AllProvidersFailedError` whose payload is
exactly the failure message of the last provider in the attempt trace (and
`none` when the trace is empty). The manager state threaded through the loop
changes only provider health flags and limiter windows, never a provider's
generate behaviour, which the invariants record. -/
theorem gwfLoop_all_fail (m₀ : ProviderManager) (now : ℚ) :
    ∀ (order : List String) (m : ProviderManager) (tried attempted : List String)
      (last_error : Option String),
    (∀ pr ∈ m.providers, pr.2.gen.isFail = true) →
    (∀ n, (alookup n m.providers).map BaseProvider.gen
        = (alookup n m₀.providers).map BaseProvider.gen) →
    last_error = attempted.getLast?.bind (genErrAt m₀) →
    (ProviderManager.gwfLoop now m order tried last_error attempted).1 =
      .error (.allFailed
        ((ProviderManager.gwfLoop now m order tried last_error attempted).2.2.getLast?.bind
          (genErrAt m₀))) := by
  intro order
  induction order with
  | nil =>
    intro m tried attempted last_error _ _ hle
    simpa [ProviderManager.gwfLoop] using hle
  | cons name rest ih =>
    intro m tried attempted last_error hfail hgen hle
    rw [ProviderManager.gwfLoop]
    by_cases hmem : name ∈ tried
    · simp only [hmem, if_true]
      exact ih m tried attempted last_error hfail hgen hle
    · simp only [hmem, if_false]
      cases h : alookup name m.providers with
      | none => exact ih m tried attempted last_error hfail hgen hle
      | some p =>
        by_cases hskip : (!p.is_healthy && decide (tried.length < m.providers.length - 1)) = true
        · simp only [hskip, if_true]
          exact ih m tried attempted last_error hfail hgen hle
        · simp only [hskip, if_false]
          have hfail' : ∀ pr ∈ ({ m with
              rate_limiter := (m.rate_limiter.can_request name now).2 } :
              ProviderManager).providers, pr.2.gen.isFail = true := hfail
          by_cases hcr : (m.rate_limiter.can_request name now).1 = true
          · simp only [hcr, Bool.not_true, Bool.false_eq_true, if_false]
            cases hg : p.gen with
            | ok resp =>
              have := hfail (name, p) (alookup_mem h)
              rw [hg] at this
              simp [GenOutcome.isFail] at this
            | fail msg =>
              simp only [hg]
              have hupd : ∀ n, (alookup n (updateAssoc m.providers name
                  (p.mark_unhealthy msg now))).map BaseProvider.gen
                  = (alookup n m₀.providers).map BaseProvider.gen := by
                intro n
                by_cases hn : name = n
                · subst hn
                  rw [alookup_updateAssoc_self, h, ← hgen name, h]
                  rfl
                · rw [alookup_updateAssoc_ne _ _ _ _ hn]
                  exact hgen n
              have hfail'' : ∀ pr ∈ updateAssoc m.providers name (p.mark_unhealthy msg now),
                  pr.2.gen.isFail = true := by
                intro pr hpr
                rcases mem_updateAssoc hpr with hpr' | hpr'
                · subst hpr'
                  show (p.mark_unhealthy msg now).gen.isFail = true
                  have := hfail (name, p) (alookup_mem h)
                  simpa [BaseProvider.mark_unhealthy] using this
                · exact hfail pr hpr'
              have hle' : some msg = (attempted ++ [name]).getLast?.bind (genErrAt m₀) := by
                rw [List.getLast?_concat]
                have hg0 : (alookup name m₀.providers).map BaseProvider.gen
                    = some (.fail msg) := by
                  rw [← hgen name, h]
                  simp [hg]
                cases hq : alookup name m₀.providers with
                | none =>
                  rw [hq] at hg0
                  simp at hg0
                | some q =>
                  rw [hq] at hg0
                  simp only [Option.map_some'] at hg0
                  have hqg : q.gen = .fail msg := by injection hg0
                  simp [genErrAt, hq, hqg]
              exact ih _ _ _ _ hfail'' hupd hle'
          · have hcr' : (m.rate_limiter.can_request name now).1 = false := by
              simpa using hcr
            simp only [hcr', Bool.not_false, if_true]
            exact ih _ _ _ _ hfail' hgen hle

/-- C4: when every registered backend's generate call fails when attempted,
`generate_with_failover` surfaces exactly `AllProvidersFailedError` whose
payload is the failure of the most recently attempted backend (`none` when no
backend was attempted); every per-backend failure is absorbed by the loop — in
the embedding the failover result type admits no other error, mirroring the
catch-all `except` around each provider call. -/
theorem gwf_all_fail_references_last_error (m : ProviderManager) (user_id : Option Int)
    (now : ℚ) (hfail : ∀ pr ∈ m.providers, pr.2.gen.isFail = true) :
    (m.generate_with_failover user_id now).1 =
      .error (.allFailed
        ((m.generate_with_failover user_id now).2.2.getLast?.bind (genErrAt m))) :=
  gwfLoop_all_fail m now (m.get_provider_order user_id) m [] [] none hfail
    (fun _ => rfl) rfl

/-- Concrete manager with two healthy but failing providers for the C4
witness. -/
def mgrC4 : ProviderManager :=
  { providers := [("a", { name := "a", gen := .fail "ea" }),
                  ("b", { name := "b", gen := .fail "eb" })],
    rate_limiter := rlFree, priority_order := ["a", "b"], user_preferences := [] }

/-- Witness for C4: both providers are attempted and fail; the surfaced error
is `AllProvidersFailedError` referencing the failure of `"b"`, the last
attempted backend. -/
theorem gwf_all_fail_references_last_error_witness :
    ((mgrC4.generate_with_failover none 0).1 =
      .error (.allFailed
        ((mgrC4.generate_with_failover none 0).2.2.getLast?.bind (genErrAt mgrC4)))) ∧
    (mgrC4.generate_with_failover none 0).2.2 = ["a", "b"] ∧
    (mgrC4.generate_with_failover none 0).2.2.getLast?.bind (genErrAt mgrC4) = some "eb" :=
  ⟨gwf_all_fail_references_last_error mgrC4 none 0 (by decide), rfl, rfl⟩

/-! ### C5 -/

/-- No usage recorded: every stored window is empty. -/
def RateLimiter.emptyUsage (rl : RateLimiter) : Prop :=
  ∀ pr ∈ rl.usage, pr.2.requests = [] ∧ pr.2.tokens = []

/-- The spec's description of `selectBackend` for the default order: the first
backend in the priority order that is registered and healthy. Stated from the
spec's words, to be compared with `get_provider` as embedded from the code. -/
def spec_first_healthy (m : ProviderManager) : Option BaseProvider :=
  m.priority_order.findSome? (fun n =>
    (alookup n m.providers).bind (fun p => if p.is_healthy then some p else none))

theorem emptyUsage_clean_window {rl : RateLimiter} (p : String) (now : ℚ)
    (h : rl.emptyUsage) : (rl.clean_window p now).emptyUsage := by
  intro pr hpr
  unfold RateLimiter.clean_window at hpr
  cases hw : alookup p rl.usage with
  | none =>
    rw [hw] at hpr
    exact h pr hpr
  | some w =>
    rw [hw] at hpr
    rcases mem_updateAssoc hpr with hpr' | hpr'
    · obtain ⟨hr, ht⟩ := h (p, w) (alookup_mem hw)
      have hr' : w.requests = [] := hr
      have ht' : w.tokens = [] := ht
      subst hpr'
      constructor
      · show List.filter _ w.requests = []
        rw [hr']
        rfl
      · show List.filter _ w.tokens = []
        rw [ht']
        rfl
    · exact h pr hpr'

theorem usage_percentage_of_empty (rl : RateLimiter) (p : String) (now : ℚ)
    (h : rl.emptyUsage) :
    (rl.get_usage_percentage p now).1 = (0, 0) ∧
    (rl.get_usage_percentage p now).2.emptyUsage := by
  unfold RateLimiter.get_usage_percentage
  cases hl : alookup p rl.limits with
  | none => exact ⟨rfl, h⟩
  | some limit =>
    have hw : ((alookup p (rl.clean_window p now).usage).getD {}).requests = [] ∧
        ((alookup p (rl.clean_window p now).usage).getD {}).tokens = [] := by
      rw [clean_window_lookup]
      cases hu : alookup p rl.usage with
      | none => exact ⟨rfl, rfl⟩
      | some w =>
        obtain ⟨hr, ht⟩ := h (p, w) (alookup_mem hu)
        have hr' : w.requests = [] := hr
        have ht' : w.tokens = [] := ht
        simp [pruneWindow, hr', ht']
    refine ⟨?_, emptyUsage_clean_window p now h⟩
    simp only [hw.1, hw.2, List.length_nil, List.map_nil, List.sum_nil, Nat.cast_zero,
      Int.cast_zero, zero_div, Prod.mk.injEq]
    constructor <;> split <;> rfl

theorem should_failover_of_empty (rl : RateLimiter) (p : String) (now : ℚ) (th : ℚ)
    (hth : 0 < th) (h : rl.emptyUsage) :
    (rl.should_failover p now th).1 = false ∧ (rl.should_failover p now th).2.emptyUsage := by
  obtain ⟨hu, hs⟩ := usage_percentage_of_empty rl p now h
  unfold RateLimiter.should_failover
  refine ⟨?_, hs⟩
  show (decide (th ≤ (rl.get_usage_percentage p now).1.1)
      || decide (th ≤ (rl.get_usage_percentage p now).1.2)) = false
  rw [hu]
  simp only [Bool.or_eq_false_iff, decide_eq_false_iff_not, not_le]
  exact ⟨hth, hth⟩

theorem gpLoop_of_empty (providers : List (String × BaseProvider)) (now : ℚ) :
    ∀ (order : List String) (rl : RateLimiter), rl.emptyUsage →
      (ProviderManager.gpLoop providers now order rl).1 =
        order.findSome? (fun n =>
          (alookup n providers).bind (fun p => if p.is_healthy then some p else none)) := by
  intro order
  induction order with
  | nil => intro rl _; rfl
  | cons name rest ih =>
    intro rl h
    rw [ProviderManager.gpLoop, List.findSome?_cons]
    cases hn : alookup name providers with
    | none =>
      simp only [Option.none_bind]
      exact ih rl h
    | some p =>
      cases hp : p.is_healthy with
      | false =>
        simp only [Option.some_bind, hp, Bool.not_false, if_true, Bool.false_eq_true,
          if_false]
        exact ih rl h
      | true =>
        obtain ⟨hsf, hsf2⟩ := should_failover_of_empty rl name now (4/5) (by norm_num) h
        simp only [Option.some_bind, hp, Bool.not_true, Bool.false_eq_true, if_false,
          if_true, hsf]

/-- C5: with no quota usage recorded and the priority order a duplicate-free
permutation of the registered names, `get_provider` (with no caller id) returns
exactly the first healthy backend in priority order, and returns none if and
only if every registered backend is unhealthy. -/
theorem get_provider_first_healthy (m : ProviderManager) (now : ℚ)
    (hperm : m.priority_order.Perm (m.providers.map Prod.fst))
    (hnd : (m.providers.map Prod.fst).Nodup)
    (hempty : m.rate_limiter.emptyUsage) :
    (m.get_provider none now).1 = spec_first_healthy m ∧
    ((m.get_provider none now).1 = none ↔ ∀ pr ∈ m.providers, pr.2.is_healthy = false) := by
  have hloop := gpLoop_of_empty m.providers now m.priority_order m.rate_limiter hempty
  cases hg : ProviderManager.gpLoop m.providers now m.priority_order m.rate_limiter with
  | mk o rl' =>
    rw [hg] at hloop
    cases o with
    | some p =>
      have hget : (m.get_provider none now).1 = some p := by
        unfold ProviderManager.get_provider
        simp [pyTruthyInt, hg]
      have hfs : m.priority_order.findSome? (fun n =>
          (alookup n m.providers).bind
            (fun q => if q.is_healthy then some q else none)) = some p := hloop.symm
      refine ⟨by rw [hget]; exact hloop, ?_⟩
      rw [hget]
      constructor
      · intro hcontra
        exact absurd hcontra (by simp)
      · intro hall
        exfalso
        obtain ⟨a, _, hfa⟩ := List.exists_of_findSome?_eq_some hfs
        cases ha : alookup a m.providers with
        | none => rw [ha] at hfa; simp at hfa
        | some q =>
          rw [ha, Option.some_bind] at hfa
          have hq : q.is_healthy = false := hall (a, q) (alookup_mem ha)
          rw [if_neg (by simp [hq])] at hfa
          exact Option.noConfusion hfa
    | none =>
      have hall : ∀ pr ∈ m.providers, pr.2.is_healthy = false := by
        intro pr hpr
        obtain ⟨n, q⟩ := pr
        have hkey : n ∈ m.priority_order :=
          hperm.mem_iff.mpr (List.mem_map_of_mem Prod.fst hpr)
        have hlk : alookup n m.providers = some q := alookup_of_mem_nodup hpr hnd
        have hnone := List.findSome?_eq_none_iff.mp hloop.symm n hkey
        rw [hlk] at hnone
        simp only [Option.some_bind] at hnone
        by_cases hh : q.is_healthy = true
        · rw [if_pos hh] at hnone
          cases hnone
        · simpa using hh
      have hlr : ProviderManager.lastResort m.providers = none := by
        unfold ProviderManager.lastResort
        rw [List.find?_eq_none.mpr]
        · rfl
        · intro x hx
          rw [hall x hx]
          simp
      have hget : (m.get_provider none now).1 = none := by
        unfold ProviderManager.get_provider
        simp [pyTruthyInt, hg, hlr]
      exact ⟨by rw [hget]; exact hloop, by rw [hget]; exact ⟨fun _ => hall, fun _ => rfl⟩⟩

/-- Concrete manager for the C5 witness: `"a"` (priority first) unhealthy,
`"b"` healthy. -/
def respC5 : LLMResponse :=
  { content := "ok", tokens_used := 1, model := "m", provider := "b", latency_ms := 1 }

/-- Concrete manager for the C5 witness (continued): registered providers with
the healthy one second in priority order. -/
def mgrC5 : ProviderManager :=
  { providers := [("a", { name := "a", is_healthy := false, gen := .fail "ea" }),
                  ("b", { name := "b", gen := .ok respC5 })],
    rate_limiter := rlFree, priority_order := ["a", "b"], user_preferences := [] }

/-- Witness for C5 at the concrete manager: selection returns the first healthy
backend in priority order (`"b"`), and the all-unhealthy characterisation of
none holds. -/
theorem get_provider_first_healthy_witness :
    (mgrC5.get_provider none 0).1 = spec_first_healthy mgrC5 ∧
    ((mgrC5.get_provider none 0).1 = none ↔ ∀ pr ∈ mgrC5.providers, pr.2.is_healthy = false) :=
  get_provider_first_healthy mgrC5 0
    (by show (["a", "b"] : List String).Perm ["a", "b"]; exact List.Perm.refl _)
    (by show (["a", "b"] : List String).Nodup; simp)
    (by intro pr hpr; simp [mgrC5, rlFree] at hpr)

/-- Witness for C10: registering a preference for caller `0` succeeds and
stores the entry, yet the failover ordering for caller `0` is the plain
priority order. -/
theorem user_zero_preference_ignored_witness :
    (mgrC10.set_user_preference 0 "a").1 = true ∧
    alookup 0 (mgrC10.set_user_preference 0 "a").2.user_preferences = some "a" ∧
    (mgrC10.set_user_preference 0 "a").2.get_provider_order (some 0) =
      (mgrC10.set_user_preference 0 "a").2.priority_order := by
  have h := user_zero_preference_ignored mgrC10 "a" 0 (by rfl)
  exact ⟨h.1, h.2.1, h.2.2.1 _⟩
